import Mathlib

/-!
Verification of the HQL (Harvest query language) core of the obsidian-harvest
plugin: the query parser (`parseQuery`), the time-range resolver
(`parseTimeRange`), the report renderer/aggregator (`renderReport`,
`renderSummary`) and the dynamic path of the query executor (`hqlProcessor`),
as implemented in `src/main.ts` (the final snapshot of the plugin file is the
authoritative one).

Modelling conventions, stated once here:

* JavaScript `Date` values are used by the source only at day granularity
  (`getFullYear`/`getMonth`/`getDate`/`getDay`/`setDate`, and the
  `Date(year, month, day)` constructor).  ECMAScript defines a Date as a time
  value, an offset from the epoch 1970-01-01; at day granularity that is an
  integer count of days.  We model a date as that integer (`Int`) and the
  component accessors as the proleptic-Gregorian extraction functions
  (`civilFromDays`), which are ECMAScript's `YearFromTime`, `MonthFromTime`,
  `DateFromTime` and `WeekDay`; the constructor is `MakeDay` (`makeDayJS`,
  `newDateJS`).  ECMAScript specifies the extraction functions mathematically
  (e.g. `YearFromTime(t)` is the largest year whose first day is at most `t`),
  not as an algorithm; `civilFromDays` is a computable definition of the same
  functions, and the round-trip theorems `daysFromCivil_civilFromDays` and
  `civilFromDays_daysFromCivil` establish that it is the two-sided inverse of
  `daysFromCivil` on valid civil dates, which pins it to that specification.
* Numbers are modelled exactly: integers as `Int`, entry hours as `Rat`.
  Floating-point rounding and the finite ±1e8-day `TimeClip` range of JS
  dates are not modelled: the spec's claims are settled in this exact model.
* The source reads the current date with `new Date()` inside
  `parseTimeRange`; the ambient current day is passed as an explicit
  `today : Int` parameter.
-/

/-- A civil (proleptic Gregorian) calendar date, month 1-12, day 1-31. -/
structure CivilDate where
  year : Int
  month : Int
  day : Int
  deriving DecidableEq, Repr

/-- Gregorian leap-year rule, as in ECMAScript `DaysInYear`. -/
def isLeapYear (y : Int) : Bool :=
  y % 4 = 0 && (y % 100 ≠ 0 || y % 400 = 0)

theorem isLeapYear_iff (y : Int) :
    isLeapYear y = true ↔ (y % 4 = 0 ∧ (y % 100 ≠ 0 ∨ y % 400 = 0)) := by
  unfold isLeapYear
  simp

/-- Number of days in a month, month 1-12 (ECMAScript month m-1). -/
def daysInMonth (y m : Int) : Int :=
  if m = 2 then (if isLeapYear y then 29 else 28)
  else if m = 4 ∨ m = 6 ∨ m = 9 ∨ m = 11 then 30
  else 31

/-- The date is a real calendar date. -/
def ValidDate (dt : CivilDate) : Prop :=
  1 ≤ dt.month ∧ dt.month ≤ 12 ∧ 1 ≤ dt.day ∧ dt.day ≤ daysInMonth dt.year dt.month

instance (dt : CivilDate) : Decidable (ValidDate dt) := by
  unfold ValidDate; infer_instance

/-- Days since 1970-01-01 of the civil date `(y, m, d)` (no range clipping):
ECMAScript `MakeDay(y, m-1, d)` for a month already in 1..12.  This is the
standard era-based count of proleptic-Gregorian days; note that `/` on `Int`
is euclidean division, which agrees with ECMAScript's `floor` division for
the positive divisors used here. -/
def daysFromCivil (y m d : Int) : Int :=
  let yAdj := if m ≤ 2 then y - 1 else y
  let era := yAdj / 400
  let yoe := yAdj - 400 * era
  let mp := if m ≤ 2 then m + 9 else m - 3
  let doy := (153 * mp + 2) / 5 + d - 1
  let doe := 365 * yoe + yoe / 4 - yoe / 100 + doy
  146097 * era + doe - 719468

/-- Civil date of day number `z` (days since 1970-01-01): ECMAScript's
`YearFromTime` / `MonthFromTime` / `DateFromTime` at day granularity,
computed by decomposing the 400-year era into centuries, 4-year blocks and
years (each clamped at the long last block). -/
def civilFromDays (z : Int) : CivilDate :=
  let zd := z + 719468
  let era := zd / 146097
  let doe := zd - 146097 * era
  let c := min (doe / 36524) 3
  let doc := doe - 36524 * c
  let q := doc / 1461
  let doq := doc - 1461 * q
  let yq := min (doq / 365) 3
  let doy := doq - 365 * yq
  let yoe := 100 * c + 4 * q + yq
  let mp := (5 * doy + 2) / 153
  let d := doy - (153 * mp + 2) / 5 + 1
  let m := if mp < 10 then mp + 3 else mp - 9
  ⟨yoe + 400 * era + (if m ≤ 2 then 1 else 0), m, d⟩

/-- ECMAScript `Date.prototype.getFullYear` at day granularity. -/
def jsGetFullYear (z : Int) : Int := (civilFromDays z).year

/-- ECMAScript `Date.prototype.getMonth` (0-based month). -/
def jsGetMonth (z : Int) : Int := (civilFromDays z).month - 1

/-- ECMAScript `Date.prototype.getDate` (day of month, 1-based). -/
def jsGetDate (z : Int) : Int := (civilFromDays z).day

/-- ECMAScript `Date.prototype.getDay` (`WeekDay`, 0 = Sunday).  Day 0
(1970-01-01) was a Thursday, so the weekday is `(z + 4) mod 7`. -/
def jsGetDay (z : Int) : Int := (z + 4) % 7

/-- Century extraction within a 400-year era: the clamped division by 36524
recovers `yoe / 100` from the day-of-era. -/
theorem century_extract (yoe doy doe : Int)
    (hyoeb : 0 ≤ yoe ∧ yoe ≤ 399) (hdoyb : 0 ≤ doy ∧ doy ≤ 365)
    (hLF : doy ≤ 364 ∨ (doy = 365 ∧ yoe % 4 = 3 ∧ (yoe % 100 ≠ 99 ∨ yoe = 399)))
    (h6 : doe = 365 * yoe + yoe / 4 - yoe / 100 + doy) :
    min (doe / 36524) 3 = yoe / 100 := by
  have h : yoe / 100 = 0 ∨ yoe / 100 = 1 ∨ yoe / 100 = 2 ∨ yoe / 100 = 3 := by omega
  rcases hLF with hLF | hLF <;> rcases h with h | h | h | h <;> omega

/-- Four-year block extraction: division of the day-of-century by 1461. -/
theorem quad_extract (yoe doy doe : Int)
    (hyoeb : 0 ≤ yoe ∧ yoe ≤ 399) (hdoyb : 0 ≤ doy ∧ doy ≤ 365)
    (h6 : doe = 365 * yoe + yoe / 4 - yoe / 100 + doy) :
    (doe - 36524 * (yoe / 100)) / 1461 = yoe / 4 - 25 * (yoe / 100) := by
  omega

/-- Year-in-block extraction and recovery of the day-of-year. -/
theorem yearq_extract (yoe doy doe : Int)
    (hyoeb : 0 ≤ yoe ∧ yoe ≤ 399) (hdoyb : 0 ≤ doy ∧ doy ≤ 365)
    (hLF : doy ≤ 364 ∨ (doy = 365 ∧ yoe % 4 = 3 ∧ (yoe % 100 ≠ 99 ∨ yoe = 399)))
    (h6 : doe = 365 * yoe + yoe / 4 - yoe / 100 + doy) :
    min ((doe - 36524 * (yoe / 100) - 1461 * (yoe / 4 - 25 * (yoe / 100))) / 365) 3
        = yoe - 4 * (yoe / 4) ∧
    doe - 36524 * (yoe / 100) - 1461 * (yoe / 4 - 25 * (yoe / 100)) -
        365 * (yoe - 4 * (yoe / 4)) = doy := by
  rcases hLF with hLF | hLF
  · exact ⟨by omega, by omega⟩
  · exact ⟨by omega, by omega⟩

/-- Month extraction: the `(5 doy + 2) / 153` formula inverts the day-of-year
construction for every valid day of the March-based month `mp`. -/
theorem month_extract (mp d doy : Int)
    (hmpb : 0 ≤ mp ∧ mp ≤ 11) (hd1 : 1 ≤ d) (hd31 : d ≤ 31)
    (hlen30 : mp = 1 ∨ mp = 3 ∨ mp = 6 ∨ mp = 8 → d ≤ 30)
    (hlen29 : mp = 11 → d ≤ 29)
    (h5 : doy = (153 * mp + 2) / 5 + d - 1) :
    (5 * doy + 2) / 153 = mp ∧ doy - (153 * mp + 2) / 5 + 1 = d := by
  have h : mp = 0 ∨ mp = 1 ∨ mp = 2 ∨ mp = 3 ∨ mp = 4 ∨ mp = 5 ∨ mp = 6 ∨ mp = 7 ∨
      mp = 8 ∨ mp = 9 ∨ mp = 10 ∨ mp = 11 := by omega
  rcases h with h | h | h | h | h | h | h | h | h | h | h | h <;>
    subst h <;> exact ⟨by omega, by omega⟩

set_option maxHeartbeats 1000000 in
/-- The civil extraction chain applied to the day number built from a valid
civil date `(y, m, d)` recovers exactly `(y, m, d)`.  All intermediate values
of both chains are abstracted as variables with their defining equations. -/
theorem days_civil_chain (y m d yAdj era yoe mp doy doe : Int)
    (hv1 : 1 ≤ m) (hv2 : m ≤ 12) (hv3 : 1 ≤ d) (hv4 : d ≤ daysInMonth y m)
    (h1 : yAdj = if m ≤ 2 then y - 1 else y)
    (h2 : era = yAdj / 400) (h3 : yoe = yAdj - 400 * era)
    (h4 : mp = if m ≤ 2 then m + 9 else m - 3)
    (h5 : doy = (153 * mp + 2) / 5 + d - 1)
    (h6 : doe = 365 * yoe + yoe / 4 - yoe / 100 + doy)
    (z2 zd2 era2 doe2 c2 doc2 q2 doq2 yq2 doy2 yoe2 mp2 d2 m2 : Int)
    (hz2 : z2 = 146097 * era + doe - 719468)
    (g0 : zd2 = z2 + 719468)
    (g1 : era2 = zd2 / 146097) (g2 : doe2 = zd2 - 146097 * era2)
    (g3 : c2 = min (doe2 / 36524) 3) (g4 : doc2 = doe2 - 36524 * c2)
    (g5 : q2 = doc2 / 1461) (g6 : doq2 = doc2 - 1461 * q2)
    (g7 : yq2 = min (doq2 / 365) 3) (g8 : doy2 = doq2 - 365 * yq2)
    (g9 : yoe2 = 100 * c2 + 4 * q2 + yq2) (g10 : mp2 = (5 * doy2 + 2) / 153)
    (g11 : d2 = doy2 - (153 * mp2 + 2) / 5 + 1)
    (g12 : m2 = if mp2 < 10 then mp2 + 3 else mp2 - 9) :
    (⟨yoe2 + 400 * era2 + (if m2 ≤ 2 then 1 else 0), m2, d2⟩ : CivilDate) = ⟨y, m, d⟩ := by
  have hyoeb : 0 ≤ yoe ∧ yoe ≤ 399 := by omega
  have hd31 : d ≤ 31 := by
    unfold daysInMonth at hv4
    split_ifs at hv4 <;> omega
  have hfeb : m = 2 → d ≤ (if isLeapYear y then 29 else 28) := by
    intro hm
    rw [hm] at hv4
    unfold daysInMonth at hv4
    simpa using hv4
  have hfeb29 : m = 2 → d ≤ 29 := by
    intro hm
    have := hfeb hm
    split_ifs at this <;> omega
  have hfebLeap : m = 2 → d = 29 → (y % 4 = 0 ∧ (y % 100 ≠ 0 ∨ y % 400 = 0)) := by
    intro hm hd
    have hle := hfeb hm
    by_cases hly : isLeapYear y = true
    · exact (isLeapYear_iff y).mp hly
    · rw [if_neg hly] at hle
      omega
  have h30 : (m = 4 ∨ m = 6 ∨ m = 9 ∨ m = 11) → d ≤ 30 := by
    intro hm
    unfold daysInMonth at hv4
    rw [if_neg (by omega), if_pos hm] at hv4
    exact hv4
  clear hfeb hv4
  by_cases hm2 : m ≤ 2
  · -- January / February: March-based month mp = m + 9 ∈ {10, 11}
    simp only [if_pos hm2] at h1 h4
    have hmpb : 0 ≤ mp ∧ mp ≤ 11 := by omega
    have hlen30 : mp = 1 ∨ mp = 3 ∨ mp = 6 ∨ mp = 8 → d ≤ 30 := by omega
    have hlen29 : mp = 11 → d ≤ 29 := fun hmp11 => hfeb29 (by omega)
    have hdoyb : 0 ≤ doy ∧ doy ≤ 365 := by omega
    have hLF : doy ≤ 364 ∨
        (doy = 365 ∧ yoe % 4 = 3 ∧ (yoe % 100 ≠ 99 ∨ yoe = 399)) := by
      rcases Int.lt_or_le doy 365 with hlt | hge
      · exact Or.inl (by omega)
      · have hmd : m = 2 ∧ d = 29 := by omega
        have hy := hfebLeap hmd.1 hmd.2
        exact Or.inr ⟨by omega, by omega, by omega⟩
    clear hfebLeap hfeb29 h30
    have hdoeb : 0 ≤ doe ∧ doe ≤ 146096 := by omega
    have hera2 : era2 = era := by omega
    rw [hera2] at g2
    rw [hera2]
    have hdoe2 : doe2 = doe := by omega
    rw [hdoe2] at g3 g4
    clear g1 g0 hz2 g2
    have hc2 : c2 = yoe / 100 := g3.trans (century_extract yoe doy doe hyoeb hdoyb hLF h6)
    subst hc2
    subst g4
    have hq2 : q2 = yoe / 4 - 25 * (yoe / 100) :=
      g5.trans (quad_extract yoe doy doe hyoeb hdoyb h6)
    subst hq2
    subst g6
    have hy := yearq_extract yoe doy doe hyoeb hdoyb hLF h6
    have hyq2 : yq2 = yoe - 4 * (yoe / 4) := g7.trans hy.1
    subst hyq2
    have hdoy2 : doy2 = doy := g8.trans hy.2
    rw [hdoy2] at g10 g11
    have hmm := month_extract mp d doy hmpb hv3 hd31 hlen30 hlen29 h5
    have hmp2 : mp2 = mp := g10.trans hmm.1
    rw [hmp2] at g11 g12
    have hd2 : d2 = d := g11.trans hmm.2
    have hyoe2 : yoe2 = yoe := by omega
    have hmp10 : ¬ (mp < 10) := by omega
    rw [if_neg hmp10] at g12
    have hm2' : m2 ≤ 2 := by omega
    rw [if_pos hm2']
    simp only [CivilDate.mk.injEq]
    refine ⟨by omega, by omega, by omega⟩
  · -- March .. December: mp = m - 3 ∈ [0, 9], day-of-year at most 305
    simp only [if_neg hm2] at h1 h4
    clear hfebLeap
    have hmpb : 0 ≤ mp ∧ mp ≤ 11 := by omega
    have hlen30 : mp = 1 ∨ mp = 3 ∨ mp = 6 ∨ mp = 8 → d ≤ 30 := fun hm => h30 (by omega)
    have hlen29 : mp = 11 → d ≤ 29 := by omega
    have hdoyb : 0 ≤ doy ∧ doy ≤ 365 := by
      have := hlen30
      omega
    have hLF : doy ≤ 364 ∨
        (doy = 365 ∧ yoe % 4 = 3 ∧ (yoe % 100 ≠ 99 ∨ yoe = 399)) := by
      left
      omega
    clear hfeb29 h30
    have hdoeb : 0 ≤ doe ∧ doe ≤ 146096 := by omega
    have hera2 : era2 = era := by omega
    rw [hera2] at g2
    rw [hera2]
    have hdoe2 : doe2 = doe := by omega
    rw [hdoe2] at g3 g4
    clear g1 g0 hz2 g2
    have hc2 : c2 = yoe / 100 := g3.trans (century_extract yoe doy doe hyoeb hdoyb hLF h6)
    subst hc2
    subst g4
    have hq2 : q2 = yoe / 4 - 25 * (yoe / 100) :=
      g5.trans (quad_extract yoe doy doe hyoeb hdoyb h6)
    subst hq2
    subst g6
    have hy := yearq_extract yoe doy doe hyoeb hdoyb hLF h6
    have hyq2 : yq2 = yoe - 4 * (yoe / 4) := g7.trans hy.1
    subst hyq2
    have hdoy2 : doy2 = doy := g8.trans hy.2
    rw [hdoy2] at g10 g11
    have hmm := month_extract mp d doy hmpb hv3 hd31 hlen30 hlen29 h5
    have hmp2 : mp2 = mp := g10.trans hmm.1
    rw [hmp2] at g11 g12
    have hd2 : d2 = d := g11.trans hmm.2
    have hyoe2 : yoe2 = yoe := by omega
    have hmp10 : mp < 10 := by omega
    rw [if_pos hmp10] at g12
    have hm2' : ¬ (m2 ≤ 2) := by omega
    rw [if_neg hm2']
    simp only [CivilDate.mk.injEq]
    refine ⟨by omega, by omega, by omega⟩

/-- Round trip: extracting the civil date of the day number of a valid civil
date gives that date back. -/
theorem civilFromDays_daysFromCivil (y m d : Int) (h : ValidDate ⟨y, m, d⟩) :
    civilFromDays (daysFromCivil y m d) = ⟨y, m, d⟩ := by
  obtain ⟨hv1, hv2, hv3, hv4⟩ := h
  exact days_civil_chain y m d _ _ _ _ _ _ hv1 hv2 hv3 hv4 rfl rfl rfl rfl rfl rfl
    (daysFromCivil y m d) _ _ _ _ _ _ _ _ _ _ _ _ _
    rfl rfl rfl rfl rfl rfl rfl rfl rfl rfl rfl rfl rfl rfl

set_option maxHeartbeats 1000000 in
/-- The extraction chain of `civilFromDays` yields a valid civil date, and
`daysFromCivil` rebuilds the original day number from it. -/
theorem civil_chain_spec (zd era doe c doc q doq yq doy yoe mp d m : Int)
    (h1 : era = zd / 146097) (h2 : doe = zd - 146097 * era)
    (h3 : c = min (doe / 36524) 3) (h4 : doc = doe - 36524 * c)
    (h5 : q = doc / 1461) (h6 : doq = doc - 1461 * q)
    (h7 : yq = min (doq / 365) 3) (h8 : doy = doq - 365 * yq)
    (h9 : yoe = 100 * c + 4 * q + yq) (h10 : mp = (5 * doy + 2) / 153)
    (h11 : d = doy - (153 * mp + 2) / 5 + 1)
    (h12 : m = if mp < 10 then mp + 3 else mp - 9) :
    (1 ≤ m ∧ m ≤ 12 ∧ 1 ≤ d ∧
      d ≤ daysInMonth (yoe + 400 * era + (if m ≤ 2 then 1 else 0)) m) ∧
    daysFromCivil (yoe + 400 * era + (if m ≤ 2 then 1 else 0)) m d = zd - 719468 := by
  have hdoe : 0 ≤ doe ∧ doe ≤ 146096 := by omega
  have hcb : 0 ≤ c ∧ c ≤ 3 ∧ 0 ≤ doc ∧ doc ≤ 36524 ∧ (c < 3 → doc ≤ 36523) := by omega
  have hqb : 0 ≤ q ∧ q ≤ 24 ∧ 0 ≤ doq ∧ doq ≤ 1460 ∧ (c < 3 → q = 24 → doq ≤ 1459) := by
    omega
  have hyqb : 0 ≤ yq ∧ yq ≤ 3 ∧ 0 ≤ doy ∧ doy ≤ 365 ∧
      (doy = 365 → yq = 3 ∧ doq = 1460) := by omega
  have hyoeb : 0 ≤ yoe ∧ yoe ≤ 399 := by omega
  have hleap : doy = 365 →
      (yoe + 400 * era + 1) % 4 = 0 ∧
      ((yoe + 400 * era + 1) % 100 ≠ 0 ∨ (yoe + 400 * era + 1) % 400 = 0) := by
    intro h365
    omega
  by_cases hmp10 : mp < 10
  · rw [if_pos hmp10] at h12
    subst h12
    have hm2 : ¬ (mp + 3 ≤ 2) := by omega
    rw [if_neg hm2]
    constructor
    · refine ⟨by omega, by omega, by omega, ?_⟩
      unfold daysInMonth
      split_ifs with hf1 hf2
      · exact absurd hf1 (by omega)
      · exact absurd hf1 (by omega)
      · omega
      · omega
    · unfold daysFromCivil
      simp only [if_neg hm2, add_zero, add_sub_cancel_right]
      have e1 : (yoe + 400 * era) / 400 = era := by omega
      rw [e1]
      have e2 : yoe + 400 * era - 400 * era = yoe := by ring
      rw [e2]
      have e3 : yoe / 4 = 25 * c + q := by omega
      have e4 : yoe / 100 = c := by omega
      rw [e3, e4]
      omega
  · rw [if_neg hmp10] at h12
    subst h12
    have hm2 : mp - 9 ≤ 2 := by omega
    rw [if_pos hm2]
    constructor
    · refine ⟨by omega, by omega, by omega, ?_⟩
      unfold daysInMonth
      split_ifs with hf1 hf2
      · -- February, leap year
        omega
      · -- February, non-leap year: day 366 of the March year cannot occur
        have hnl : ¬ ((yoe + 400 * era + 1) % 4 = 0 ∧
            ((yoe + 400 * era + 1) % 100 ≠ 0 ∨ (yoe + 400 * era + 1) % 400 = 0)) := by
          intro hp
          exact absurd ((isLeapYear_iff _).mpr hp) hf2
        by_cases h365 : doy = 365
        · exact absurd (hleap h365) hnl
        · omega
      · exact absurd hf1 (by omega)
      · omega
    · unfold daysFromCivil
      simp only [if_pos hm2, add_sub_cancel_right]
      have e0 : 153 * (mp - 9 + 9) + 2 = 153 * mp + 2 := by ring
      rw [e0]
      have e1 : (yoe + 400 * era) / 400 = era := by omega
      rw [e1]
      have e2 : yoe + 400 * era - 400 * era = yoe := by ring
      rw [e2]
      have e3 : yoe / 4 = 25 * c + q := by omega
      have e4 : yoe / 100 = c := by omega
      rw [e3, e4]
      omega

/-- Every day number extracts to a valid civil date. -/
theorem validDate_civilFromDays (z : Int) : ValidDate (civilFromDays z) := by
  have h := civil_chain_spec (z + 719468) _ _ _ _ _ _ _ _ _ _ _ _
    rfl rfl rfl rfl rfl rfl rfl rfl rfl rfl rfl rfl
  exact ⟨h.1.1, h.1.2.1, h.1.2.2.1, h.1.2.2.2⟩

/-- Round trip: the day number of the extracted civil date is the day
number itself. -/
theorem daysFromCivil_civilFromDays (z : Int) :
    daysFromCivil (civilFromDays z).year (civilFromDays z).month
      (civilFromDays z).day = z := by
  have h := civil_chain_spec (z + 719468) _ _ _ _ _ _ _ _ _ _ _ _
    rfl rfl rfl rfl rfl rfl rfl rfl rfl rfl rfl rfl
  exact h.2.trans (by omega)

/-- Changing only the day field shifts the day number by the same amount. -/
theorem daysFromCivil_day_shift (y m a b : Int) :
    daysFromCivil y m a - daysFromCivil y m b = a - b := by
  simp only [daysFromCivil]
  split_ifs <;> omega

/-- ECMAScript `MakeDay(y, m0, dd)` for a 0-based month `m0` (any integer):
the month is normalized into the year, and `dd` counts from the first of the
month (so `dd = 0` is the last day of the previous month). -/
def makeDayJS (y m0 dd : Int) : Int :=
  daysFromCivil (y + m0 / 12) (m0 % 12 + 1) 1 + dd - 1

/-- For an in-range 0-based month, `MakeDay` is the civil day number. -/
theorem makeDayJS_eq_daysFromCivil (y m0 dd : Int) (h : 0 ≤ m0 ∧ m0 ≤ 11) :
    makeDayJS y m0 dd = daysFromCivil y (m0 + 1) dd := by
  unfold makeDayJS
  have h1 : m0 / 12 = 0 := by omega
  have h2 : m0 % 12 = m0 := by omega
  rw [h1, h2, add_zero]
  have := daysFromCivil_day_shift y (m0 + 1) dd 1
  omega

/-- The first day of a month is at most `MakeDay(y, m0+1, 0)`, the last day of
that same month. -/
theorem makeDayJS_month_le (y m0 : Int) (h : 0 ≤ m0 ∧ m0 ≤ 11) :
    makeDayJS y m0 1 ≤ makeDayJS y (m0 + 1) 0 := by
  have hc : m0 = 0 ∨ m0 = 1 ∨ m0 = 2 ∨ m0 = 3 ∨ m0 = 4 ∨ m0 = 5 ∨ m0 = 6 ∨ m0 = 7 ∨
      m0 = 8 ∨ m0 = 9 ∨ m0 = 10 ∨ m0 = 11 := by omega
  rcases hc with hc | hc | hc | hc | hc | hc | hc | hc | hc | hc | hc | hc <;> subst hc <;>
    · simp only [makeDayJS, daysFromCivil]
      split_ifs <;> omega

/-- The `new Date(year, month, day)` constructor: ECMAScript `MakeFullYear`
maps two-digit years 0..99 to 1900..1999 before `MakeDay`. -/
def newDateJS (y m0 dd : Int) : Int :=
  makeDayJS (if 0 ≤ y ∧ y ≤ 99 then y + 1900 else y) m0 dd

/-- ECMAScript `Date.prototype.setDate(v)` at day granularity:
`MakeDay(YearFromTime(t), MonthFromTime(t), v)`. -/
def setDateJS (z v : Int) : Int :=
  makeDayJS (jsGetFullYear z) (jsGetMonth z) v

/-- Setting the day field moves the day number relative to the current day of
the month: `setDate(v)` lands on `z - getDate(z) + v`. -/
theorem setDateJS_eq (z v : Int) : setDateJS z v = z - jsGetDate z + v := by
  unfold setDateJS jsGetFullYear jsGetMonth jsGetDate
  have hv := validDate_civilFromDays z
  unfold ValidDate at hv
  rw [makeDayJS_eq_daysFromCivil _ _ _ (by omega)]
  have hm : (civilFromDays z).month - 1 + 1 = (civilFromDays z).month := by ring
  rw [hm]
  have hshift := daysFromCivil_day_shift (civilFromDays z).year (civilFromDays z).month v
      (civilFromDays z).day
  have hrt := daysFromCivil_civilFromDays z
  omega

/-- Decimal digit value of a character, if any (code points 48..57 are
`'0'..'9'`). -/
def charDigit (c : Char) : Option Nat :=
  if 48 ≤ c.toNat ∧ c.toNat ≤ 57 then some (c.toNat - 48) else none

/-- Hexadecimal digit value of a character, if any (`'a'..'f'` are code
points 97..102, `'A'..'F'` are 65..70). -/
def charHexDigit (c : Char) : Option Nat :=
  if 97 ≤ c.toNat ∧ c.toNat ≤ 102 then some (c.toNat - 87)
  else if 65 ≤ c.toNat ∧ c.toNat ≤ 70 then some (c.toNat - 55)
  else charDigit c

/-- The character of a decimal digit value (0..9). -/
def digitToChar (n : Nat) : Char :=
  if n < 10 then Char.ofNat (48 + n) else '0'

theorem digitToChar_charDigit (c : Char) (v : Nat) (h : charDigit c = some v) :
    digitToChar v = c := by
  unfold charDigit at h
  split_ifs at h with hc
  injection h with h
  subst h
  unfold digitToChar
  rw [if_pos (by omega), show 48 + (c.toNat - 48) = c.toNat from by omega]
  exact Char.ofNat_toNat c

/-- Decimal digits of a natural number, most significant first, with
structural fuel so that the definition reduces; a fuel exceeding the value
always suffices, since the value shrinks at least tenfold per digit. -/
def natToCharsAux : Nat → Nat → List Char
  | 0, _ => []
  | f + 1, n =>
    if n < 10 then [digitToChar n]
    else natToCharsAux f (n / 10) ++ [digitToChar (n % 10)]

def natToChars (n : Nat) : List Char := natToCharsAux (n + 1) n

/-- Fuel irrelevance: any fuel larger than the value gives the same digits. -/
theorem natToCharsAux_fuel (n : Nat) : ∀ f g : Nat, n < f → n < g →
    natToCharsAux f n = natToCharsAux g n := by
  induction n using Nat.strong_induction_on with
  | _ n ih =>
    intro f g hf hg
    match f, g with
    | 0, _ => omega
    | _ + 1, 0 => omega
    | f' + 1, g' + 1 =>
      simp only [natToCharsAux]
      by_cases h10 : n < 10
      · simp [h10]
      · simp only [if_neg h10]
        have hlt : n / 10 < n := by omega
        rw [ih (n / 10) hlt f' g' (by omega) (by omega)]

/-- JavaScript `ToString` on an integral Number. -/
def jsIntToString (n : Int) : String :=
  if n < 0 then String.mk ('-' :: natToChars n.natAbs) else String.mk (natToChars n.toNat)

/-- JavaScript `String.prototype.padStart(2, '0')`. -/
def padStart2 (s : String) : String :=
  if s.length < 2 then String.mk (List.replicate (2 - s.length) '0' ++ s.data) else s

/-- The `formatDate` helper of `parseTimeRange` (src/main.ts:515-520): the
year, a dash, the zero-padded month, a dash, the zero-padded day. -/
def formatDate (z : Int) : String :=
  jsIntToString (jsGetFullYear z) ++ "-" ++ padStart2 (jsIntToString (jsGetMonth z + 1))
    ++ "-" ++ padStart2 (jsIntToString (jsGetDate z))

/-- Longest leading run of decimal digits, as an accumulated value (`none`
when no digit has been seen yet). -/
def takeDigits : List Char → Option Nat → Option Nat
  | [], acc => acc
  | ch :: rest, acc =>
    match charDigit ch with
    | some v => takeDigits rest (some (acc.getD 0 * 10 + v))
    | none => acc

/-- Longest leading run of hexadecimal digits. -/
def takeHexDigits : List Char → Option Nat → Option Nat
  | [], acc => acc
  | ch :: rest, acc =>
    match charHexDigit ch with
    | some v => takeHexDigits rest (some (acc.getD 0 * 16 + v))
    | none => acc

/-- Magnitude part of JavaScript `parseInt`: an optional `0x`/`0X` prefix
selects base 16, otherwise the longest decimal prefix is read; no digit at
all is `NaN` (`none`). -/
def parseIntAbs (cs : List Char) : Option Nat :=
  match cs with
  | '0' :: 'x' :: rest => takeHexDigits rest none
  | '0' :: 'X' :: rest => takeHexDigits rest none
  | _ => takeDigits cs none

/-- JavaScript `parseInt(s)` (radix auto-detected).  The source only applies
it to whitespace-free tokens, so the leading-whitespace stripping of the real
function never fires and is not modelled; `parseInt` of an absent token
(`undefined`) is `NaN`, modelled at the call site by `Option.bind`. -/
def parseIntJS (s : String) : Option Int :=
  match s.data with
  | '-' :: rest => (parseIntAbs rest).map (fun n => -(n : Int))
  | '+' :: rest => (parseIntAbs rest).map (fun n => (n : Int))
  | rest => (parseIntAbs rest).map (fun n => (n : Int))

/-- JavaScript `new Date(string)` on the conforming date-only ISO form
`YYYY-MM-DD`, at day granularity: the four-two-two digit shape with real
calendar ranges yields the civil day number, anything else is an invalid
date (`none`).  (Non-conforming strings fall back to implementation-specific
parsing in real engines; the HQL grammar only ever feeds canonical literals,
and those fallbacks are modelled as invalid.) -/
def parseISODate (s : String) : Option Int :=
  match s.data with
  | [y1, y2, y3, y4, '-', mo1, mo2, '-', d1, d2] =>
    match charDigit y1, charDigit y2, charDigit y3, charDigit y4,
          charDigit mo1, charDigit mo2, charDigit d1, charDigit d2 with
    | some a, some b, some c, some e, some f, some g, some h, some i =>
      let y : Int := 1000 * a + 100 * b + 10 * c + e
      let m : Int := 10 * f + g
      let d : Int := 10 * h + i
      if 1 ≤ m ∧ m ≤ 12 ∧ 1 ≤ d ∧ d ≤ daysInMonth y m then some (daysFromCivil y m d)
      else none
    | _, _, _, _, _, _, _, _ => none
  | _ => none

/-- Whitespace as the source's queries can contain it (the ASCII part of the
class `\s` used by the tokenizer's `split(/\s+/)`). -/
def isWsChar (c : Char) : Bool :=
  c = ' ' || c = '\t' || c = '\n' || c = '\r'

/-- Split a character list on runs of whitespace, dropping empty pieces. -/
def splitWsAux : List Char → List Char → List (List Char)
  | [], acc => if acc.isEmpty then [] else [acc.reverse]
  | ch :: rest, acc =>
    if isWsChar ch then
      (if acc.isEmpty then splitWsAux rest [] else acc.reverse :: splitWsAux rest [])
    else splitWsAux rest (ch :: acc)

/-- JavaScript `String.prototype.trim`. -/
def trimJS (s : String) : String :=
  String.mk (((s.data.dropWhile isWsChar).reverse.dropWhile isWsChar).reverse)

/-- The tokenizer of `parseQuery` (src/main.ts:500): `trim`, then
`split(/\s+/)`.  In JavaScript splitting the empty string yields `[""]`; a
trimmed non-empty string has no leading or trailing separator, so splitting
it on whitespace runs gives exactly the non-empty words. -/
def tokenizeJS (s : String) : List String :=
  let t := trimJS s
  if t.isEmpty then [""] else (splitWsAux t.data []).map String.mk

/-- JavaScript `String.prototype.toUpperCase`, on the ASCII range the HQL
grammar uses. -/
def jsToUpperChar (c : Char) : Char :=
  if 97 ≤ c.toNat ∧ c.toNat ≤ 122 then Char.ofNat (c.toNat - 32) else c

def jsToUpper (s : String) : String := String.mk (s.data.map jsToUpperChar)

/-- Decidable equality for `Except` results, used to state and evaluate
parser outcomes. -/
instance {e a : Type} [DecidableEq e] [DecidableEq a] : DecidableEq (Except e a)
  | .error x, .error y =>
    if h : x = y then .isTrue (by rw [h]) else .isFalse (by simp [h])
  | .error _, .ok _ => .isFalse (by simp)
  | .ok _, .error _ => .isFalse (by simp)
  | .ok x, .ok y =>
    if h : x = y then .isTrue (by rw [h]) else .isFalse (by simp [h])

/-- HQL report type (src/main.ts: `enum QueryType`). -/
inductive QueryType
  | LIST
  | SUMMARY
  deriving DecidableEq, Repr

/-- The parsed query (src/main.ts: `interface HarvestQuery`): report type and
the resolved `from`/`to` dates in `YYYY-MM-DD` form.  (`from` is a reserved
word in Lean, so the fields are named `fromDate`/`toDate`.) -/
structure HarvestQuery where
  type : QueryType
  fromDate : String
  toDate : String
  deriving DecidableEq, Repr

/-- The time-range resolver `parseTimeRange` (src/main.ts:513-557) before its
final `formatDate` step: the `switch (tokens[0])` over the uppercased range
tokens, producing the internal `from`/`to` Date pair (as day numbers).
`today` is the `new Date()` the source reads at entry.  In the `WEEK` branch
the source mutates `today` via `setDate`, but only after reading
`getDay`/`getDate` from it, and the mutated value is exactly
`firstDayOfWeek`; the data flow below is the same.  `parseInt` of a missing
token (`undefined` in JS) is `NaN`, modelled by `Option.bind` over the
optional token. -/
def parseTimeRangeD (tokens : List String) (today : Int) : Except String (Int × Int) :=
  match tokens with
  | "TODAY" :: _ => .ok (today, today)
  | "WEEK" :: _ =>
    let dayOfWeek := jsGetDay today
    let firstDayOfWeek :=
      setDateJS today (jsGetDate today - dayOfWeek + (if dayOfWeek = 0 then -6 else 1))
    .ok (firstDayOfWeek, setDateJS firstDayOfWeek (jsGetDate firstDayOfWeek + 6))
  | "MONTH" :: _ =>
    .ok (newDateJS (jsGetFullYear today) (jsGetMonth today) 1,
         newDateJS (jsGetFullYear today) (jsGetMonth today + 1) 0)
  | "PAST" :: rest =>
    match (rest[0]?).bind parseIntJS with
    | none => .error "Invalid PAST format. Use 'PAST <number> DAYS'."
    | some count =>
      if rest[1]? ≠ some "DAYS" then .error "Invalid PAST format. Use 'PAST <number> DAYS'."
      else .ok (setDateJS today (jsGetDate today - (count - 1)), today)
  | "FROM" :: rest =>
    if rest.length < 3 ∨ rest[1]? ≠ some "TO" then .error "Invalid FROM...TO format."
    else
      match parseISODate ((rest[0]?).getD ""), parseISODate ((rest[2]?).getD "") with
      | some f, some t => .ok (f, t)
      | _, _ => .error "Invalid date format in FROM...TO. Use YYYY-MM-DD."
  | t :: _ => .error ("Unknown time range specifier: " ++ t)
  | [] => .error "Unknown time range specifier: undefined"

/-- `parseTimeRange` (src/main.ts:513-557): the resolver above followed by the
source's `return { from: formatDate(from), to: formatDate(to) }`. -/
def parseTimeRange (tokens : List String) (today : Int) : Except String (String × String) :=
  (parseTimeRangeD tokens today).map (fun ft => (formatDate ft.1, formatDate ft.2))

/-- The query parser `parseQuery` (src/main.ts:499-511): trim, split on
whitespace runs, uppercase every token; fewer than two tokens or a first
token other than `LIST`/`SUMMARY` is a parse error; the remaining tokens go
to the time-range resolver. -/
def parseQuery (source : String) (today : Int) : Except String HarvestQuery :=
  let tokens := (tokenizeJS source).map jsToUpper
  if tokens.length < 2 then .error "Query is too short."
  else
    match tokens with
    | [] => .error "Query is too short."
    | t0 :: rest =>
      if t0 ≠ "LIST" ∧ t0 ≠ "SUMMARY" then
        .error ("Invalid query type: " ++ t0 ++ ". Must be LIST or SUMMARY.")
      else
        (parseTimeRange rest today).map
          (fun ft => ⟨if t0 = "LIST" then QueryType.LIST else QueryType.SUMMARY, ft.1, ft.2⟩)

/- `Rat` arithmetic is `[irreducible]` by default, which blocks `decide` on
concrete rational computations; restore default reducibility locally so that
witnesses evaluate. -/
attribute [local semireducible] Rat.add Rat.mul Rat.sub Rat.inv

/-- Project reference carried by a time entry (`HarvestProject` fields the
renderer reads). -/
structure ProjectRef where
  id : Int
  name : String
  deriving DecidableEq, Repr

/-- Task reference carried by a time entry. -/
structure TaskRef where
  id : Int
  name : String
  deriving DecidableEq, Repr

/-- A Harvest time entry, restricted to the fields the HQL report pipeline
reads (`HarvestTimeEntry` in src/main.ts).  Hours are rational: the exact
model of the JS number. -/
structure TimeEntry where
  id : Int
  spent_date : String
  hours : Rat
  project : ProjectRef
  task : TaskRef
  deriving DecidableEq, Repr

/-- One step of the `projectTotals` accumulation in `renderSummary`
(src/main.ts:599-606): `if (!projectTotals[p]) projectTotals[p] = 0;
projectTotals[p] += hours`.  The JS object is modelled as an association
list of its own string-keyed properties in insertion order; the falsy
re-initialization only ever writes `0` over an absent or zero value, so the
step is exactly an upsert-add.  (JavaScript's special treatment of the key
`__proto__` on plain objects is not modelled.) -/
def addTotal : List (String × Rat) → String → Rat → List (String × Rat)
  | [], name, h => [(name, h)]
  | (k, v) :: rest, name, h =>
    if k = name then (k, v + h) :: rest else (k, v) :: addTotal rest name h

/-- The `projectTotals` object after the entry loop of `renderSummary`:
keys appear in first-encountered order of project names. -/
def projectTotals (entries : List TimeEntry) : List (String × Rat) :=
  entries.foldl (fun acc e => addTotal acc e.project.name e.hours) []

/-- The `totalHours` accumulator of the same loop. -/
def totalHours (entries : List TimeEntry) : Rat :=
  entries.foldl (fun acc e => acc + e.hours) 0

/-- Numeric value of an all-digits string. -/
def strNatValue (s : String) : Nat :=
  s.data.foldl (fun a c => a * 10 + (charDigit c).getD 0) 0

/-- An ECMAScript array-index property name: a canonical decimal numeral
(no leading zero except `"0"` itself) whose value is below 2^32 - 1. -/
def isArrayIndexName (s : String) : Bool :=
  !s.data.isEmpty && s.data.all (fun ch => (charDigit ch).isSome) &&
    (s.data.head? ≠ some '0' || s = "0") && strNatValue s < 4294967295

/-- Insert into a list of array-index names, ascending by numeric value. -/
def insertByNat (a : String) : List String → List String
  | [] => [a]
  | b :: rest =>
    if strNatValue a ≤ strNatValue b then a :: b :: rest else b :: insertByNat a rest

def sortByNat : List String → List String
  | [] => []
  | a :: rest => insertByNat a (sortByNat rest)

/-- `Object.keys` on the totals object: per ECMAScript property enumeration
order, integer-index keys come first in ascending numeric order, then the
remaining string keys in insertion (first-encountered) order. -/
def jsObjectKeys (pt : List (String × Rat)) : List String :=
  let names := pt.map Prod.fst
  sortByNat (names.filter (fun n => isArrayIndexName n))
    ++ names.filter (fun n => !isArrayIndexName n)

/-- Total hours recorded for a project name in the totals object. -/
def lookupTotal (pt : List (String × Rat)) (name : String) : Rat :=
  ((pt.lookup name).getD 0)

/-- The `sortedProjects` list (src/main.ts:617):
`Object.keys(projectTotals).sort((a, b) => projectTotals[b] - projectTotals[a])`.
The comparator is consistent, so ECMAScript requires the unique stable
sort of the keys, descending by total; `List.insertionSort` with the
reflexive descending relation is that stable sort. -/
def sortedProjects (pt : List (String × Rat)) : List String :=
  List.insertionSort (fun a b => lookupTotal pt a ≥ lookupTotal pt b) (jsObjectKeys pt)

/-- The chart palette (src/main.ts:614). -/
def chartColors : List String :=
  ["#84b65a", "#c25956", "#59a7c2", "#c29b59", "#8e59c2", "#c2598e", "#5ac28a"]

/-- One bar-chart segment (and the matching legend row) of the summary. -/
structure SummarySegment where
  projectName : String
  hours : Rat
  percentage : Rat
  color : String
  deriving DecidableEq, Repr

/-- The summary view computed by `renderSummary` (src/main.ts:595-644):
the total, and one segment per project in `sortedProjects` order, with
`percentage = totalHours > 0 ? projectHours / totalHours * 100 : 0` and
`color = colors[colorIndex % colors.length]`.  The bar chart and the legend
iterate identically, so one segment list models both. -/
def renderSummaryD (entries : List TimeEntry) : Rat × List SummarySegment :=
  let pt := projectTotals entries
  let total := totalHours entries
  (total,
    (sortedProjects pt).enum.map (fun ie =>
      { projectName := ie.2,
        hours := lookupTotal pt ie.2,
        percentage := if total > 0 then lookupTotal pt ie.2 / total * 100 else 0,
        color := chartColors.getD (ie.1 % chartColors.length) "" }))

/-- The rows of the list view rendered by `renderList` (src/main.ts:576-593):
project name, task name, date, hours, in input order.  (The `toFixed(2)`
string formatting of hours happens at HTML emission and is not part of the
aggregation the claims are about.) -/
def renderListD (entries : List TimeEntry) : List (String × String × String × Rat) :=
  entries.map (fun e => (e.project.name, e.task.name, e.spent_date, e.hours))

/-- The display tree produced by `renderReport` (src/main.ts:560-574), at the
data level. -/
inductive ReportView
  | noEntries
  | list (rows : List (String × String × String × Rat))
  | summary (total : Rat) (segments : List SummarySegment)
  deriving DecidableEq, Repr

/-- `renderReport`: the fixed "No time entries found for the selected
period." paragraph on an empty entry list, else the list or summary view. -/
def renderReport (entries : List TimeEntry) (query : HarvestQuery) : ReportView :=
  if entries.isEmpty then .noEntries
  else
    match query.type with
    | .LIST => .list (renderListD entries)
    | .SUMMARY => .summary (renderSummaryD entries).1 (renderSummaryD entries).2

/-- The display states the dynamic path of `hqlProcessor`
(src/main.ts:707-719) can leave in the rendered element. -/
inductive DisplayState
  | failedFetch
  | rendered (view : ReportView)
  | procError (msg : String)
  deriving DecidableEq, Repr

/-- `getTimeEntries` (src/main.ts:873-884).  `userId` is the cached user id
(`null` when unavailable); `response` is the outcome of the API `request`
(`none` models a failed request, which the source receives as `null`, or a
response without a `time_entries` field).  On every failure path the source
returns the empty array. -/
def getTimeEntries (userId : Option Int) (response : Option (List TimeEntry)) :
    List TimeEntry :=
  match userId with
  | none => []
  | some _ =>
    match response with
    | some entries => entries
    | none => []

/-- The truthiness test `if (entries)` of `hqlProcessor` applied to the value
returned by `getTimeEntries`: that value is always an array, and in
JavaScript every array (including `[]`) is an object and therefore truthy. -/
def jsArrayTruthy (entries : List TimeEntry) : Bool := true

/-- The dynamic (non `--static`) path of `hqlProcessor` (src/main.ts:707-719)
for a source without the static flag (for which the `--static` strip is the
identity): parse, fetch, then `if (entries) renderReport else
el.setText('Failed to fetch Harvest report.')`, with parse errors caught and
shown as `Error processing Harvest query: ...`. -/
def hqlProcessDynamic (userId : Option Int) (response : Option (List TimeEntry))
    (source : String) (today : Int) : DisplayState :=
  match parseQuery source today with
  | .error e => .procError ("Error processing Harvest query: " ++ e)
  | .ok query =>
    let entries := getTimeEntries userId response
    if jsArrayTruthy entries then .rendered (renderReport entries query)
    else .failedFetch

/-- Unfolding lemma: the `TODAY` branch of the resolver. -/
theorem parseTimeRangeD_today (rest : List String) (today : Int) :
    parseTimeRangeD ("TODAY" :: rest) today = Except.ok (today, today) := rfl

/-- Unfolding lemma: the `WEEK` branch of the resolver. -/
theorem parseTimeRangeD_week (rest : List String) (today : Int) :
    parseTimeRangeD ("WEEK" :: rest) today =
      Except.ok (setDateJS today (jsGetDate today - jsGetDay today +
          (if jsGetDay today = 0 then -6 else 1)),
        setDateJS
          (setDateJS today (jsGetDate today - jsGetDay today +
            (if jsGetDay today = 0 then -6 else 1)))
          (jsGetDate (setDateJS today (jsGetDate today - jsGetDay today +
            (if jsGetDay today = 0 then -6 else 1))) + 6)) := rfl

/-- Unfolding lemma: the `MONTH` branch of the resolver. -/
theorem parseTimeRangeD_month (rest : List String) (today : Int) :
    parseTimeRangeD ("MONTH" :: rest) today =
      Except.ok (newDateJS (jsGetFullYear today) (jsGetMonth today) 1,
        newDateJS (jsGetFullYear today) (jsGetMonth today + 1) 0) := rfl

/-- Unfolding lemma: the `PAST` branch of the resolver. -/
theorem parseTimeRangeD_past (rest : List String) (today : Int) :
    parseTimeRangeD ("PAST" :: rest) today =
      (match (rest[0]?).bind parseIntJS with
       | none => Except.error "Invalid PAST format. Use 'PAST <number> DAYS'."
       | some count =>
         if rest[1]? ≠ some "DAYS" then
           Except.error "Invalid PAST format. Use 'PAST <number> DAYS'."
         else Except.ok (setDateJS today (jsGetDate today - (count - 1)), today)) := rfl

theorem parseTimeRangeD_past_none (rest : List String) (today : Int)
    (hn : (rest[0]?).bind parseIntJS = none) :
    parseTimeRangeD ("PAST" :: rest) today =
      Except.error "Invalid PAST format. Use 'PAST <number> DAYS'." := by
  rw [parseTimeRangeD_past, hn]

theorem parseTimeRangeD_past_some (rest : List String) (today n : Int)
    (hn : (rest[0]?).bind parseIntJS = some n) :
    parseTimeRangeD ("PAST" :: rest) today =
      (if rest[1]? ≠ some "DAYS" then
        Except.error "Invalid PAST format. Use 'PAST <number> DAYS'."
      else Except.ok (setDateJS today (jsGetDate today - (n - 1)), today)) := by
  rw [parseTimeRangeD_past, hn]

/-- Unfolding lemma: the `FROM` branch of the resolver. -/
theorem parseTimeRangeD_from (rest : List String) (today : Int) :
    parseTimeRangeD ("FROM" :: rest) today =
      (if rest.length < 3 ∨ rest[1]? ≠ some "TO" then
        Except.error "Invalid FROM...TO format."
       else
         match parseISODate ((rest[0]?).getD ""), parseISODate ((rest[2]?).getD "") with
         | some f, some t => Except.ok (f, t)
         | _, _ => Except.error "Invalid date format in FROM...TO. Use YYYY-MM-DD.") := rfl

/-- C1: the query executor cannot reach the "failed to fetch" display state:
`getTimeEntries` returns `[]` on every failure path and an array is always
truthy, so a failed fetch renders exactly like a successful fetch of zero
entries (the "No time entries found" view), contradicting the spec's
requirement that fetch failure be shown as the distinct fixed "failed to
fetch" state. -/
theorem hql_fetch_failure_conflated :
    hqlProcessDynamic (some 1) none "LIST TODAY" 20000 =
      DisplayState.rendered ReportView.noEntries ∧
    hqlProcessDynamic (some 1) (some []) "LIST TODAY" 20000 =
      DisplayState.rendered ReportView.noEntries ∧
    DisplayState.rendered ReportView.noEntries ≠ DisplayState.failedFetch ∧
    ∀ (uid : Option Int) (resp : Option (List TimeEntry)) (s : String) (today : Int),
      hqlProcessDynamic uid resp s today ≠ DisplayState.failedFetch := by
  refine ⟨by decide, by decide, by decide, ?_⟩
  intro uid resp s today
  unfold hqlProcessDynamic
  cases parseQuery s today <;> simp [jsArrayTruthy]

/-- C2 counterexample: `FROM 2025-01-31 TO 2025-01-01` parses successfully
into a query whose `from` date (day 20119) is after its `to` date
(day 20089): the parser does not enforce `from ≤ to`. -/
theorem hql_inverted_from_to_accepted :
    parseQuery "LIST FROM 2025-01-31 TO 2025-01-01" 20000 =
      Except.ok ⟨QueryType.LIST, "2025-01-31", "2025-01-01"⟩ ∧
    parseISODate "2025-01-31" = some 20119 ∧
    parseISODate "2025-01-01" = some 20089 ∧
    (20089 : Int) < 20119 := by
  exact ⟨by decide, by decide, by decide, by decide⟩

/-- C2 amended: the relative range forms do satisfy `from ≤ to` — for every
accepted `TODAY`, `WEEK` or `MONTH` range, and every `PAST n DAYS` range
whose count parses to `n ≥ 1`, the resolved pair is ordered.  (The
`FROM d1 TO d2` form accepts `d1 > d2`, and `PAST n DAYS` with `n ≤ 0`
yields an inverted range, per the counterexample.) -/
theorem hql_relative_ranges_ordered (tokens : List String) (today f t : Int)
    (h : parseTimeRangeD tokens today = Except.ok (f, t))
    (hform : tokens.head? = some "TODAY" ∨ tokens.head? = some "WEEK" ∨
      tokens.head? = some "MONTH" ∨
      (tokens.head? = some "PAST" ∧ ∃ n, 1 ≤ n ∧ (tokens[1]?).bind parseIntJS = some n)) :
    f ≤ t := by
  rcases hform with h' | h' | h' | ⟨h', n, hn1, hn⟩
  · cases tokens with
    | nil => simp at h'
    | cons t0 rest =>
      simp only [List.head?_cons, Option.some.injEq] at h'
      subst h'
      rw [parseTimeRangeD_today] at h
      simp only [Except.ok.injEq, Prod.mk.injEq] at h
      omega
  · cases tokens with
    | nil => simp at h'
    | cons t0 rest =>
      simp only [List.head?_cons, Option.some.injEq] at h'
      subst h'
      rw [parseTimeRangeD_week] at h
      simp only [Except.ok.injEq, Prod.mk.injEq] at h
      obtain ⟨hf, ht⟩ := h
      simp only [setDateJS_eq] at hf ht
      omega
  · cases tokens with
    | nil => simp at h'
    | cons t0 rest =>
      simp only [List.head?_cons, Option.some.injEq] at h'
      subst h'
      rw [parseTimeRangeD_month] at h
      simp only [Except.ok.injEq, Prod.mk.injEq] at h
      obtain ⟨hf, ht⟩ := h
      subst hf
      subst ht
      unfold newDateJS
      have hv := validDate_civilFromDays today
      unfold ValidDate at hv
      exact makeDayJS_month_le _ (jsGetMonth today) (by unfold jsGetMonth; omega)
  · cases tokens with
    | nil => simp at h'
    | cons t0 rest =>
      simp only [List.head?_cons, Option.some.injEq] at h'
      subst h'
      simp only [List.getElem?_cons_succ] at hn
      rw [parseTimeRangeD_past_some rest today n hn] at h
      by_cases hd : rest[1]? = some "DAYS"
      · rw [if_neg (not_not_intro hd)] at h
        simp only [Except.ok.injEq, Prod.mk.injEq] at h
        obtain ⟨hf, ht⟩ := h
        rw [setDateJS_eq] at hf
        omega
      · rw [if_pos hd] at h
        exact absurd h (by simp)

/-- C2 amended, witness. -/
theorem hql_relative_ranges_ordered_witness : (19996 : Int) ≤ 20002 :=
  hql_relative_ranges_ordered ["WEEK"] 20000 19996 20002 (by decide) (by simp)

/-- C3 counterexample: `PAST 0 DAYS` has a non-positive count, yet the
resolver succeeds (and even returns the inverted range
`(today + 1, today)`) instead of failing with a parse error. -/
theorem hql_past_zero_accepted :
    parseIntJS "0" = some 0 ∧
    parseTimeRangeD ["PAST", "0", "DAYS"] 20000 = Except.ok (20001, 20000) := by
  exact ⟨by decide, by decide⟩

/-- C3 amended: the `PAST` form succeeds exactly when `parseInt` yields some
integer (of any sign) for the count token and the literal `DAYS` follows;
otherwise it fails with the fixed parse error message naming the expected
format.  Positivity of the count is not checked (see the counterexample),
and the error message does not echo the offending count. -/
theorem hql_past_format (rest : List String) (today : Int) :
    ((∃ p, parseTimeRangeD ("PAST" :: rest) today = Except.ok p) ↔
      (((rest[0]?).bind parseIntJS).isSome ∧ rest[1]? = some "DAYS")) ∧
    (¬ (((rest[0]?).bind parseIntJS).isSome ∧ rest[1]? = some "DAYS") →
      parseTimeRangeD ("PAST" :: rest) today =
        Except.error "Invalid PAST format. Use 'PAST <number> DAYS'.") := by
  cases hbind : (rest[0]?).bind parseIntJS with
  | none =>
    rw [parseTimeRangeD_past_none rest today hbind]
    constructor
    · constructor
      · rintro ⟨p, hp⟩
        exact absurd hp (by simp)
      · rintro ⟨hs, -⟩
        simp at hs
    · intro _
      rfl
  | some n =>
    rw [parseTimeRangeD_past_some rest today n hbind]
    by_cases hd : rest[1]? = some "DAYS"
    · rw [if_neg (not_not_intro hd)]
      constructor
      · constructor
        · intro _
          exact ⟨by simp, hd⟩
        · intro _
          exact ⟨_, rfl⟩
      · intro hc
        exact absurd ⟨by simp, hd⟩ hc
    · rw [if_pos hd]
      constructor
      · constructor
        · rintro ⟨p, hp⟩
          exact absurd hp (by simp)
        · rintro ⟨-, hds⟩
          exact absurd hds hd
      · intro _
        rfl

/-- C3 amended, witness. -/
theorem hql_past_format_witness :
    parseTimeRangeD ["PAST", "x", "DAYS"] 20000 =
      Except.error "Invalid PAST format. Use 'PAST <number> DAYS'." :=
  (hql_past_format ["x", "DAYS"] 20000).2 (by decide)

/-- C5: for a count token parsing to `n ≥ 1`, `PAST n DAYS` resolves to
`to = today` and `from = today - (n - 1)`, a range of exactly `n` days
inclusive (`to - from = n - 1`); the resolution is pure day-number
arithmetic, so this holds across month and year boundaries. -/
theorem hql_past_n_days (s : String) (n today : Int)
    (hn : parseIntJS s = some n) (h1 : 1 ≤ n) :
    parseTimeRangeD ["PAST", s, "DAYS"] today =
      Except.ok (today - (n - 1), today) ∧
    today - (today - (n - 1)) = n - 1 := by
  have hb : (([s, "DAYS"] : List String)[0]?).bind parseIntJS = some n := by
    simpa using hn
  have h2 : (([s, "DAYS"] : List String)[1]?) = some ("DAYS" : String) := rfl
  constructor
  · rw [parseTimeRangeD_past_some [s, "DAYS"] today n hb, h2,
      if_neg (not_not_intro rfl), setDateJS_eq]
    have : today - jsGetDate today + (jsGetDate today - (n - 1)) = today - (n - 1) := by
      ring
    rw [this]
  · ring

/-- C5 witness: `PAST 3 DAYS` seen from day 20000. -/
theorem hql_past_n_days_witness :
    parseTimeRangeD ["PAST", "3", "DAYS"] 20000 = Except.ok (19998, 20000) ∧
    (20000 : Int) - (20000 - (3 - 1)) = 3 - 1 :=
  hql_past_n_days "3" 3 20000 (by decide) (by decide)

/-- C6: the `WEEK` range is the ISO week of `today`: `from` is a Monday,
`to` is six days later (the following Sunday), the week contains `today`,
and when `today` is a Sunday `from` is the Monday six days earlier. -/
theorem hql_week_range (today f t : Int)
    (h : parseTimeRangeD ["WEEK"] today = Except.ok (f, t)) :
    jsGetDay f = 1 ∧ t = f + 6 ∧ f ≤ today ∧ today ≤ t ∧
    (jsGetDay today = 0 → f = today - 6) := by
  rw [parseTimeRangeD_week] at h
  simp only [Except.ok.injEq, Prod.mk.injEq] at h
  obtain ⟨hf, ht⟩ := h
  simp only [setDateJS_eq] at hf ht
  unfold jsGetDay at hf ht ⊢
  by_cases h0 : (today + 4) % 7 = 0
  · rw [if_pos h0] at hf ht
    refine ⟨by omega, by omega, by omega, by omega, by omega⟩
  · rw [if_neg h0] at hf ht
    refine ⟨by omega, by omega, by omega, by omega, by omega⟩

/-- C6 witness: the week of day 20000 (Friday 2024-10-04) runs from Monday
2024-09-30 (day 19996) to Sunday 2024-10-06 (day 20002). -/
theorem hql_week_range_witness :
    jsGetDay 19996 = 1 ∧ (20002 : Int) = 19996 + 6 ∧ (19996 : Int) ≤ 20000 ∧
    (20000 : Int) ≤ 20002 ∧ (jsGetDay 20000 = 0 → (19996 : Int) = 20000 - 6) :=
  hql_week_range 20000 19996 20002 (by decide)

theorem charDigit_le9 (c : Char) (v : Nat) (h : charDigit c = some v) : v ≤ 9 := by
  unfold charDigit at h
  split_ifs at h with hc
  injection h with h
  omega

theorem natToChars_lt10 (n : Nat) (h : n < 10) : natToChars n = [digitToChar n] := by
  unfold natToChars
  simp only [natToCharsAux]
  rw [if_pos h]

theorem natToChars_ge10 (n : Nat) (h : 10 ≤ n) :
    natToChars n = natToChars (n / 10) ++ [digitToChar (n % 10)] := by
  unfold natToChars
  have h1 : natToCharsAux (n + 1) n = natToCharsAux n (n / 10) ++ [digitToChar (n % 10)] := by
    simp only [natToCharsAux]
    rw [if_neg (by omega)]
  rw [h1, natToCharsAux_fuel (n / 10) n (n / 10 + 1) (by omega) (by omega)]

theorem natToChars_two (m1 m2 : Nat) (h1 : 1 ≤ m1) (h1' : m1 ≤ 9) (h2 : m2 ≤ 9) :
    natToChars (10 * m1 + m2) = [digitToChar m1, digitToChar m2] := by
  rw [natToChars_ge10 _ (by omega)]
  have e1 : (10 * m1 + m2) / 10 = m1 := by omega
  have e2 : (10 * m1 + m2) % 10 = m2 := by omega
  rw [e1, e2, natToChars_lt10 m1 (by omega)]
  rfl

theorem natToChars_four (a b c e : Nat) (ha : 1 ≤ a) (ha' : a ≤ 9)
    (hb : b ≤ 9) (hc : c ≤ 9) (he : e ≤ 9) :
    natToChars (1000 * a + 100 * b + 10 * c + e) =
      [digitToChar a, digitToChar b, digitToChar c, digitToChar e] := by
  rw [natToChars_ge10 _ (by omega)]
  have e1 : (1000 * a + 100 * b + 10 * c + e) / 10 = 100 * a + 10 * b + c := by omega
  have e2 : (1000 * a + 100 * b + 10 * c + e) % 10 = e := by omega
  rw [e1, e2, natToChars_ge10 _ (by omega)]
  have e3 : (100 * a + 10 * b + c) / 10 = 10 * a + b := by omega
  have e4 : (100 * a + 10 * b + c) % 10 = c := by omega
  rw [e3, e4, natToChars_two a b ha ha' hb]
  rfl

theorem jsIntToString_ofNat (n : Nat) :
    jsIntToString (n : Int) = String.mk (natToChars n) := by
  unfold jsIntToString
  rw [if_neg (by omega), Int.toNat_ofNat]

theorem padStart2_two (m1 m2 : Nat) (h1 : m1 ≤ 9) (h2 : m2 ≤ 9) :
    padStart2 (jsIntToString ((10 * m1 + m2 : Nat) : Int)) =
      String.mk [digitToChar m1, digitToChar m2] := by
  rw [jsIntToString_ofNat]
  by_cases hm : 1 ≤ m1
  · rw [natToChars_two m1 m2 hm h1 h2]
    unfold padStart2
    rw [if_neg (by simp [String.length])]
  · have hm0 : m1 = 0 := by omega
    subst hm0
    simp only [Nat.mul_zero, Nat.zero_add]
    rw [natToChars_lt10 m2 (by omega)]
    unfold padStart2
    rw [if_pos (by simp [String.length])]
    rfl

/-- Round trip: a string accepted by the ISO date parser whose year is at
least 1000 is reproduced exactly by `formatDate` (years below 1000 lose
their leading zeros, since the source does not pad the year). -/
theorem parseISODate_formatDate (s : String) (z : Int)
    (hp : parseISODate s = some z) (hy : 1000 ≤ jsGetFullYear z) :
    formatDate z = s := by
  cases s with
  | mk data =>
    unfold parseISODate at hp
    split at hp
    · rename_i y1 y2 y3 y4 mo1 mo2 dd1 dd2 heq
      split at hp
      · rename_i a b c e f g hh ii ha hb hc he hf hg hh2 hi2
        simp only [] at hp
        split_ifs at hp with hvg
        · injection hp with hz
          subst hz
          have hval : ValidDate ⟨1000 * (a : Int) + 100 * b + 10 * c + e,
              10 * (f : Int) + g, 10 * (hh : Int) + ii⟩ := hvg
          have hciv := civilFromDays_daysFromCivil _ _ _ hval
          have hY : jsGetFullYear (daysFromCivil (1000 * (a : Int) + 100 * b + 10 * c + e)
              (10 * (f : Int) + g) (10 * (hh : Int) + ii)) =
              1000 * (a : Int) + 100 * b + 10 * c + e := by
            unfold jsGetFullYear
            rw [hciv]
          have hM : jsGetMonth (daysFromCivil (1000 * (a : Int) + 100 * b + 10 * c + e)
              (10 * (f : Int) + g) (10 * (hh : Int) + ii)) =
              10 * (f : Int) + g - 1 := by
            unfold jsGetMonth
            rw [hciv]
          have hD : jsGetDate (daysFromCivil (1000 * (a : Int) + 100 * b + 10 * c + e)
              (10 * (f : Int) + g) (10 * (hh : Int) + ii)) = 10 * (hh : Int) + ii := by
            unfold jsGetDate
            rw [hciv]
          have ha9 : a ≤ 9 := charDigit_le9 _ _ ha
          have hb9 : b ≤ 9 := charDigit_le9 _ _ hb
          have hc9 : c ≤ 9 := charDigit_le9 _ _ hc
          have he9 : e ≤ 9 := charDigit_le9 _ _ he
          have hf9 : f ≤ 9 := charDigit_le9 _ _ hf
          have hg9 : g ≤ 9 := charDigit_le9 _ _ hg
          have hh9 : hh ≤ 9 := charDigit_le9 _ _ hh2
          have hi9 : ii ≤ 9 := charDigit_le9 _ _ hi2
          rw [hY] at hy
          have ha1 : 1 ≤ a := by omega
          unfold formatDate
          rw [hY, hM, hD]
          rw [show (10 * (f : Int) + g - 1 + 1) = 10 * (f : Int) + g from by ring]
          rw [show (1000 * (a : Int) + 100 * b + 10 * c + e) =
            ((1000 * a + 100 * b + 10 * c + e : Nat) : Int) from by push_cast; ring]
          rw [show (10 * (f : Int) + g) = ((10 * f + g : Nat) : Int) from by push_cast; ring]
          rw [show (10 * (hh : Int) + ii) = ((10 * hh + ii : Nat) : Int) from by push_cast; ring]
          rw [jsIntToString_ofNat (1000 * a + 100 * b + 10 * c + e),
            natToChars_four a b c e ha1 ha9 hb9 hc9 he9,
            padStart2_two f g hf9 hg9, padStart2_two hh ii hh9 hi9]
          rw [digitToChar_charDigit _ _ ha, digitToChar_charDigit _ _ hb,
            digitToChar_charDigit _ _ hc, digitToChar_charDigit _ _ he,
            digitToChar_charDigit _ _ hf, digitToChar_charDigit _ _ hg,
            digitToChar_charDigit _ _ hh2, digitToChar_charDigit _ _ hi2]
          have hdata : data = [y1, y2, y3, y4, '-', mo1, mo2, '-', dd1, dd2] := heq
          subst hdata
          rfl
      · exact absurd hp (by simp)
    · exact absurd hp (by simp)

/-- C4 counterexample: the year is serialized unpadded (template literal on
`getFullYear()`), so the valid literals `0099-01-01` and `0099-01-02` parse
and come back as `99-01-01` / `99-01-02`, not in canonical zero-padded
`YYYY-MM-DD` form: the round trip fails for years below 1000. -/
theorem hql_from_to_padding_lost :
    parseTimeRange ["FROM", "0099-01-01", "TO", "0099-01-02"] 20000 =
      Except.ok ("99-01-01", "99-01-02") ∧
    ("99-01-01" : String) ≠ "0099-01-01" := by
  exact ⟨by decide, by decide⟩

/-- C4 amended: for valid `YYYY-MM-DD` literals whose year is at least 1000
(so the unpadded year serialization is the four parsed digits), resolving
`FROM d1 TO d2` returns exactly the pair `(d1, d2)` unchanged — parsing each
literal and formatting it back is the identity.  (The `d1 ≤ d2` premise is
retained from the claim but is not needed: the pair is returned unchanged
even when inverted.) -/
theorem hql_from_to_roundtrip (d1 d2 : String) (z1 z2 today : Int)
    (h1 : parseISODate d1 = some z1) (h2 : parseISODate d2 = some z2)
    (hy1 : 1000 ≤ jsGetFullYear z1) (hy2 : 1000 ≤ jsGetFullYear z2)
    (hle : z1 ≤ z2) :
    parseTimeRange ["FROM", d1, "TO", d2] today = Except.ok (d1, d2) := by
  unfold parseTimeRange
  rw [parseTimeRangeD_from]
  rw [if_neg (by simp)]
  have e1 : ((([d1, "TO", d2] : List String)[0]?).getD "") = d1 := rfl
  have e2 : ((([d1, "TO", d2] : List String)[2]?).getD "") = d2 := rfl
  rw [e1, e2, h1, h2]
  simp only [Except.map]
  rw [parseISODate_formatDate d1 z1 h1 hy1, parseISODate_formatDate d2 z2 h2 hy2]

/-- C4 amended, witness. -/
theorem hql_from_to_roundtrip_witness :
    parseTimeRange ["FROM", "2025-01-01", "TO", "2025-01-31"] 20000 =
      Except.ok ("2025-01-01", "2025-01-31") :=
  hql_from_to_roundtrip "2025-01-01" "2025-01-31" 20089 20119 20000
    (by decide) (by decide) (by decide) (by decide) (by decide)

theorem addTotal_sum (pt : List (String × Rat)) (name : String) (h : Rat) :
    ((addTotal pt name h).map Prod.snd).sum = (pt.map Prod.snd).sum + h := by
  induction pt with
  | nil => simp [addTotal]
  | cons kv rest ih =>
    obtain ⟨k, v⟩ := kv
    unfold addTotal
    by_cases hk : k = name
    · simp only [if_pos hk, List.map_cons, List.sum_cons]
      ring
    · simp only [if_neg hk, List.map_cons, List.sum_cons, ih]
      ring

theorem projectTotals_sum_aux (entries : List TimeEntry) :
    ∀ acc : List (String × Rat),
      ((entries.foldl (fun acc e => addTotal acc e.project.name e.hours) acc).map
        Prod.snd).sum = (acc.map Prod.snd).sum + (entries.map TimeEntry.hours).sum := by
  induction entries with
  | nil =>
    intro acc
    simp
  | cons e rest ih =>
    intro acc
    simp only [List.foldl_cons, List.map_cons, List.sum_cons]
    rw [ih, addTotal_sum]
    ring

theorem totalHours_eq (entries : List TimeEntry) :
    totalHours entries = (entries.map TimeEntry.hours).sum := by
  unfold totalHours
  have key : ∀ (l : List TimeEntry) (a : Rat),
      l.foldl (fun acc e => acc + e.hours) a = a + (l.map TimeEntry.hours).sum := by
    intro l
    induction l with
    | nil =>
      intro a
      simp
    | cons e rest ih =>
      intro a
      simp only [List.foldl_cons, List.map_cons, List.sum_cons, ih]
      ring
  rw [key]
  ring

/-- C7: for every non-empty entry list, the per-project totals of the summary
aggregation sum exactly to the total of all entry hours (exact rational
arithmetic, no rounding before render time). -/
theorem hql_summary_totals_sum (entries : List TimeEntry) (h : entries ≠ []) :
    ((projectTotals entries).map Prod.snd).sum = totalHours entries ∧
    totalHours entries = (entries.map TimeEntry.hours).sum := by
  refine ⟨?_, totalHours_eq entries⟩
  unfold projectTotals
  rw [projectTotals_sum_aux entries [], totalHours_eq]
  simp

/-- C7 witness: two projects, three entries. -/
theorem hql_summary_totals_sum_witness :
    ((projectTotals
      [⟨1, "2025-01-01", 1, ⟨1, "Proj A"⟩, ⟨1, "Dev"⟩⟩,
       ⟨2, "2025-01-01", 3, ⟨2, "Proj B"⟩, ⟨1, "Dev"⟩⟩,
       ⟨3, "2025-01-02", (1 : Rat) / 2, ⟨1, "Proj A"⟩, ⟨1, "Dev"⟩⟩]).map Prod.snd).sum =
      totalHours
      [⟨1, "2025-01-01", 1, ⟨1, "Proj A"⟩, ⟨1, "Dev"⟩⟩,
       ⟨2, "2025-01-01", 3, ⟨2, "Proj B"⟩, ⟨1, "Dev"⟩⟩,
       ⟨3, "2025-01-02", (1 : Rat) / 2, ⟨1, "Proj A"⟩, ⟨1, "Dev"⟩⟩] ∧
    totalHours
      [⟨1, "2025-01-01", 1, ⟨1, "Proj A"⟩, ⟨1, "Dev"⟩⟩,
       ⟨2, "2025-01-01", 3, ⟨2, "Proj B"⟩, ⟨1, "Dev"⟩⟩,
       ⟨3, "2025-01-02", (1 : Rat) / 2, ⟨1, "Proj A"⟩, ⟨1, "Dev"⟩⟩] =
      (([⟨1, "2025-01-01", 1, ⟨1, "Proj A"⟩, ⟨1, "Dev"⟩⟩,
        ⟨2, "2025-01-01", 3, ⟨2, "Proj B"⟩, ⟨1, "Dev"⟩⟩,
        ⟨3, "2025-01-02", (1 : Rat) / 2, ⟨1, "Proj A"⟩, ⟨1, "Dev"⟩⟩] :
        List TimeEntry).map TimeEntry.hours).sum :=
  hql_summary_totals_sum
    [⟨1, "2025-01-01", 1, ⟨1, "Proj A"⟩, ⟨1, "Dev"⟩⟩,
     ⟨2, "2025-01-01", 3, ⟨2, "Proj B"⟩, ⟨1, "Dev"⟩⟩,
     ⟨3, "2025-01-02", (1 : Rat) / 2, ⟨1, "Proj A"⟩, ⟨1, "Dev"⟩⟩] (by simp)

/-- C8: a summary segment's percentage share is `0` whenever the total hours
are `0` (no division is attempted), and is `hours / total * 100` whenever the
total is positive. -/
theorem hql_summary_share_safe (entries : List TimeEntry) (seg : SummarySegment)
    (hseg : seg ∈ (renderSummaryD entries).2) :
    (totalHours entries = 0 → seg.percentage = 0) ∧
    (0 < totalHours entries →
      seg.percentage = seg.hours / totalHours entries * 100) := by
  unfold renderSummaryD at hseg
  simp only [List.mem_map] at hseg
  obtain ⟨ie, hie, hfe⟩ := hseg
  subst hfe
  constructor
  · intro h0
    simp only [h0]
    norm_num
  · intro hpos
    simp only [if_pos hpos]

/-- C8 witness: a single four-hour entry gives a 100% share. -/
theorem hql_summary_share_safe_witness :
    (totalHours [⟨1, "2025-01-01", 4, ⟨1, "Proj A"⟩, ⟨1, "Dev"⟩⟩] = 0 →
      (⟨"Proj A", 4, 100, "#84b65a"⟩ : SummarySegment).percentage = 0) ∧
    (0 < totalHours [⟨1, "2025-01-01", 4, ⟨1, "Proj A"⟩, ⟨1, "Dev"⟩⟩] →
      (⟨"Proj A", 4, 100, "#84b65a"⟩ : SummarySegment).percentage =
        (⟨"Proj A", 4, 100, "#84b65a"⟩ : SummarySegment).hours /
          totalHours [⟨1, "2025-01-01", 4, ⟨1, "Proj A"⟩, ⟨1, "Dev"⟩⟩] * 100) :=
  hql_summary_share_safe [⟨1, "2025-01-01", 4, ⟨1, "Proj A"⟩, ⟨1, "Dev"⟩⟩]
    ⟨"Proj A", 4, 100, "#84b65a"⟩ (by decide)

/-- C9 counterexample: with projects named `Alpha` (first encountered) and
`5` (an array-index name) on equal totals, `Object.keys` enumerates `5`
first, so the summary lists `5` before `Alpha` even though `Alpha` came
first in the input: ties are broken by property enumeration order, not
first-encountered order. -/
theorem hql_sort_tie_not_first_encountered :
    (projectTotals
      [⟨1, "2025-01-01", 2, ⟨1, "Alpha"⟩, ⟨1, "Dev"⟩⟩,
       ⟨2, "2025-01-01", 2, ⟨2, "5"⟩, ⟨1, "Dev"⟩⟩]).map Prod.fst = ["Alpha", "5"] ∧
    lookupTotal (projectTotals
      [⟨1, "2025-01-01", 2, ⟨1, "Alpha"⟩, ⟨1, "Dev"⟩⟩,
       ⟨2, "2025-01-01", 2, ⟨2, "5"⟩, ⟨1, "Dev"⟩⟩]) "Alpha" =
    lookupTotal (projectTotals
      [⟨1, "2025-01-01", 2, ⟨1, "Alpha"⟩, ⟨1, "Dev"⟩⟩,
       ⟨2, "2025-01-01", 2, ⟨2, "5"⟩, ⟨1, "Dev"⟩⟩]) "5" ∧
    ((renderSummaryD
      [⟨1, "2025-01-01", 2, ⟨1, "Alpha"⟩, ⟨1, "Dev"⟩⟩,
       ⟨2, "2025-01-01", 2, ⟨2, "5"⟩, ⟨1, "Dev"⟩⟩]).2.map
        SummarySegment.projectName) = ["5", "Alpha"] := by
  exact ⟨by decide, by decide, by decide⟩

theorem enum_map_snd' {α : Type} (l : List α) : l.enum.map (fun ie => ie.2) = l := by
  have h1 : (fun (ie : Nat × α) => ie.2) = Prod.snd := rfl
  rw [h1, List.enum_map_snd]

theorem enum_map_comp {α β : Type} (g : α → β) (l : List α) :
    l.enum.map (fun ie => g ie.2) = l.map g := by
  have h1 : (fun (ie : Nat × α) => g ie.2) = g ∘ Prod.snd := rfl
  rw [h1, ← List.map_map, List.enum_map_snd]

theorem renderSummaryD_names (entries : List TimeEntry) :
    (renderSummaryD entries).2.map SummarySegment.projectName =
      sortedProjects (projectTotals entries) := by
  unfold renderSummaryD
  rw [List.map_map]
  exact enum_map_snd' _

theorem renderSummaryD_hours (entries : List TimeEntry) :
    (renderSummaryD entries).2.map SummarySegment.hours =
      (sortedProjects (projectTotals entries)).map
        (lookupTotal (projectTotals entries)) := by
  unfold renderSummaryD
  rw [List.map_map]
  exact enum_map_comp (lookupTotal (projectTotals entries))
    (sortedProjects (projectTotals entries))

theorem sortedProjects_sorted (pt : List (String × Rat)) :
    List.Sorted (fun a b => lookupTotal pt a ≥ lookupTotal pt b) (sortedProjects pt) := by
  haveI ht : IsTotal String (fun a b => lookupTotal pt a ≥ lookupTotal pt b) :=
    ⟨fun a b => le_total (lookupTotal pt b) (lookupTotal pt a)⟩
  haveI htr : IsTrans String (fun a b => lookupTotal pt a ≥ lookupTotal pt b) :=
    ⟨fun _ _ _ hab hbc => le_trans hbc hab⟩
  exact List.sorted_insertionSort _ _

/-- C9 amended: the summary's project totals are ordered by hours descending
(the segment hours are pairwise `≥`), and the sort is stable with respect to
`Object.keys` property enumeration order — any two keys with equal totals
keep their enumeration order — which coincides with first-encountered order
exactly when no project name is an array-index string (integer-index names
are enumerated first in ascending numeric order, per the counterexample). -/
theorem hql_summary_sorted (entries : List TimeEntry) (pt : List (String × Rat))
    (hpt : pt = projectTotals entries) :
    ((renderSummaryD entries).2.map SummarySegment.hours).Pairwise (· ≥ ·) ∧
    (∀ a b, lookupTotal pt a = lookupTotal pt b → List.Sublist [a, b] (jsObjectKeys pt) →
      List.Sublist [a, b] ((renderSummaryD entries).2.map SummarySegment.projectName)) ∧
    ((pt.map Prod.fst).all (fun n => !isArrayIndexName n) = true →
      jsObjectKeys pt = pt.map Prod.fst) := by
  subst hpt
  refine ⟨?_, ?_, ?_⟩
  · rw [renderSummaryD_hours]
    exact (sortedProjects_sorted _).map _ (fun a b h => h)
  · intro a b hab hsub
    rw [renderSummaryD_names]
    exact List.pair_sublist_insertionSort (le_of_eq hab.symm) hsub
  · intro hall
    unfold jsObjectKeys
    simp only []
    have h1 : ((projectTotals entries).map Prod.fst).filter
        (fun n => isArrayIndexName n) = [] := by
      rw [List.filter_eq_nil]
      intro n hn
      have := List.all_eq_true.mp hall n hn
      simpa using this
    have h2 : ((projectTotals entries).map Prod.fst).filter
        (fun n => !isArrayIndexName n) = (projectTotals entries).map Prod.fst := by
      rw [List.filter_eq_self]
      intro n hn
      exact List.all_eq_true.mp hall n hn
    rw [h1, h2]
    rfl

/-- C9 amended, witness: two distinct-total projects plus an equal-total
stability instance on non-index names. -/
theorem hql_summary_sorted_witness :
    ((renderSummaryD
      [⟨1, "2025-01-01", 2, ⟨1, "Alpha"⟩, ⟨1, "Dev"⟩⟩,
       ⟨2, "2025-01-01", 2, ⟨2, "Beta"⟩, ⟨1, "Dev"⟩⟩]).2.map
        SummarySegment.hours).Pairwise (· ≥ ·) ∧
    List.Sublist ["Alpha", "Beta"] ((renderSummaryD
      [⟨1, "2025-01-01", 2, ⟨1, "Alpha"⟩, ⟨1, "Dev"⟩⟩,
       ⟨2, "2025-01-01", 2, ⟨2, "Beta"⟩, ⟨1, "Dev"⟩⟩]).2.map
        SummarySegment.projectName) ∧
    jsObjectKeys (projectTotals
      [⟨1, "2025-01-01", 2, ⟨1, "Alpha"⟩, ⟨1, "Dev"⟩⟩,
       ⟨2, "2025-01-01", 2, ⟨2, "Beta"⟩, ⟨1, "Dev"⟩⟩]) =
      (projectTotals
      [⟨1, "2025-01-01", 2, ⟨1, "Alpha"⟩, ⟨1, "Dev"⟩⟩,
       ⟨2, "2025-01-01", 2, ⟨2, "Beta"⟩, ⟨1, "Dev"⟩⟩]).map Prod.fst :=
  ⟨(hql_summary_sorted
      [⟨1, "2025-01-01", 2, ⟨1, "Alpha"⟩, ⟨1, "Dev"⟩⟩,
       ⟨2, "2025-01-01", 2, ⟨2, "Beta"⟩, ⟨1, "Dev"⟩⟩] _ rfl).1,
   (hql_summary_sorted
      [⟨1, "2025-01-01", 2, ⟨1, "Alpha"⟩, ⟨1, "Dev"⟩⟩,
       ⟨2, "2025-01-01", 2, ⟨2, "Beta"⟩, ⟨1, "Dev"⟩⟩] _ rfl).2.1
     "Alpha" "Beta" (by decide) (by decide),
   (hql_summary_sorted
      [⟨1, "2025-01-01", 2, ⟨1, "Alpha"⟩, ⟨1, "Dev"⟩⟩,
       ⟨2, "2025-01-01", 2, ⟨2, "Beta"⟩, ⟨1, "Dev"⟩⟩] _ rfl).2.2 (by decide)⟩

theorem parseQuery_cons (s : String) (t0 t1 : String) (rest : List String) (today : Int)
    (h : (tokenizeJS s).map jsToUpper = t0 :: t1 :: rest) :
    parseQuery s today =
      (if t0 ≠ "LIST" ∧ t0 ≠ "SUMMARY" then
        Except.error ("Invalid query type: " ++ t0 ++ ". Must be LIST or SUMMARY.")
      else
        (parseTimeRange (t1 :: rest) today).map
          (fun ft => ⟨if t0 = "LIST" then QueryType.LIST else QueryType.SUMMARY,
            ft.1, ft.2⟩)) := by
  unfold parseQuery
  simp only [h]
  rw [if_neg (by simp)]

/-- C10: trailing tokens after a `TODAY`/`WEEK`/`MONTH` range are ignored:
a query whose uppercased tokens are `t0 t1 extra...` parses to exactly the
same result as one whose tokens are just `t0 t1`, and is accepted when `t0`
is `LIST` or `SUMMARY`. -/
theorem hql_trailing_tokens_ignored (s s2 : String) (today : Int)
    (t0 t1 : String) (rest : List String)
    (h1 : (tokenizeJS s).map jsToUpper = t0 :: t1 :: rest)
    (h2 : (tokenizeJS s2).map jsToUpper = [t0, t1])
    (ht0 : t0 = "LIST" ∨ t0 = "SUMMARY")
    (ht1 : t1 = "TODAY" ∨ t1 = "WEEK" ∨ t1 = "MONTH") :
    parseQuery s today = parseQuery s2 today ∧
    ∃ q, parseQuery s today = Except.ok q := by
  have hr : parseTimeRange (t1 :: rest) today = parseTimeRange [t1] today := by
    unfold parseTimeRange
    rcases ht1 with h' | h' | h'
    · subst h'
      rw [parseTimeRangeD_today, parseTimeRangeD_today]
    · subst h'
      rw [parseTimeRangeD_week, parseTimeRangeD_week]
    · subst h'
      rw [parseTimeRangeD_month, parseTimeRangeD_month]
  have hcond : ¬(t0 ≠ "LIST" ∧ t0 ≠ "SUMMARY") := by
    rcases ht0 with h | h <;> simp [h]
  constructor
  · rw [parseQuery_cons s t0 t1 rest today h1, parseQuery_cons s2 t0 t1 [] today h2, hr]
  · rw [parseQuery_cons s t0 t1 rest today h1, if_neg hcond, hr]
    have hok : ∃ p, parseTimeRange [t1] today = Except.ok p := by
      unfold parseTimeRange
      rcases ht1 with h' | h' | h'
      · subst h'
        rw [parseTimeRangeD_today]
        exact ⟨_, rfl⟩
      · subst h'
        rw [parseTimeRangeD_week]
        exact ⟨_, rfl⟩
      · subst h'
        rw [parseTimeRangeD_month]
        exact ⟨_, rfl⟩
    obtain ⟨p, hp⟩ := hok
    rw [hp]
    exact ⟨_, rfl⟩

/-- C10 witness: `LIST TODAY EXTRA TOKENS` parses identically to
`LIST TODAY`. -/
theorem hql_trailing_tokens_ignored_witness :
    parseQuery "LIST TODAY EXTRA TOKENS" 20000 = parseQuery "LIST TODAY" 20000 :=
  (hql_trailing_tokens_ignored "LIST TODAY EXTRA TOKENS" "LIST TODAY" 20000
    "LIST" "TODAY" ["EXTRA", "TOKENS"] (by decide) (by decide)
    (Or.inl rfl) (Or.inl rfl)).1
